import Mathlib

/-!
Verification of the picskis-automation project asset pipeline
(`src/services/pdfService.js`, `src/routes/webhook.js`).

The JavaScript source is embedded shallowly:
* byte buffers become `List Nat`;
* a parsed PDF document becomes its page list (`List Nat`, abstract page
  identities);
* the external `pdf-lib` parser/serializer and all I/O effects (network,
  tar decoding, filesystem writes, directory removal) are explicit
  parameters of the embedded functions, collected in `PipelineEnv`;
* JavaScript exceptions become `Except String`, mirroring the messages
  thrown by the source.
-/

namespace Picskis

/-- A byte buffer (Node.js `Buffer`), abstracted to its byte list. -/
abbrev Buffer := List Nat

/-- A parsed PDF document is modelled by its ordered list of pages
(abstract page identities), as manipulated by `pdf-lib`'s
`copyPages`/`addPage`. -/
abbrev PDFDoc := List Nat

/-! ### DocumentMerger — `mergePDFs` (pdfService.js lines 179-219)

`load` is `PDFDocument.load` (`none` = the buffer does not parse,
i.e. `pdf-lib` throws), `save` is `mergedPdf.save()`.  The body of
`mergePDFs` is a straight transcription of the source: it first adds the
cover pages (parsing the cover buffer if present), then the pages-document
pages (parsing that buffer if present), and only afterwards runs the
single-input pass-through checks. -/

/-- One `if (buffer) { load; copyPages; addPage }` block of `mergePDFs`:
appends every page of the parsed buffer, in order, to the accumulating
document; a parse failure propagates as the thrown merge error. -/
def addIfPresent (load : Buffer → Option PDFDoc) (buf : Option Buffer)
    (merged : PDFDoc) : Except String PDFDoc :=
  match buf with
  | none => .ok merged
  | some b =>
    match load b with
    | none => .error "PDF merge failed"
    | some doc => .ok (merged ++ doc)

/-- Function `mergePDFs(coverBuffer, pagesBuffer)` from pdfService.js:
cover pages are copied first, then pages-document pages; if exactly one
input is present its original buffer is returned (after it was already
parsed above); otherwise the merged document is serialized. -/
def mergePDFs (load : Buffer → Option PDFDoc) (save : PDFDoc → Buffer)
    (coverBuffer pagesBuffer : Option Buffer) : Except String Buffer :=
  match addIfPresent load coverBuffer [] with
  | .error e => .error e
  | .ok merged1 =>
    match addIfPresent load pagesBuffer merged1 with
    | .error e => .error e
    | .ok merged2 =>
      match coverBuffer, pagesBuffer with
      | none, some pb => .ok pb
      | some cb, none => .ok cb
      | _, _ => .ok (save merged2)

/-! ### AssetLocator — `findPDFsInDirectory` (pdfService.js lines 100-170)

A manifest entry is `Option String`: `none` models a `files` element whose
`filename` property is `undefined`.  The extracted tree is a list of
directory entries; the JS code only reads entry names and, for the
pipeline, file contents. -/

/-- Test `charsStartWith pat s`: the character list `pat` is a prefix of `s`. -/
def charsStartWith : List Char → List Char → Bool
  | [], _ => true
  | _ :: _, [] => false
  | a :: as, b :: bs => a == b && charsStartWith as bs

/-- Test `charsContain pat s`: `pat` occurs contiguously inside `s`. -/
def charsContain (pat : List Char) : List Char → Bool
  | [] => pat.isEmpty
  | s@(_ :: rest) => charsStartWith pat s || charsContain pat rest

/-- JS `s.includes(pat)`. -/
def jsIncludes (s pat : String) : Bool := charsContain pat.data s.data

/-- JS `s.endsWith(pat)`: `pat` is a suffix of `s`. -/
def jsEndsWith (s pat : String) : Bool :=
  charsStartWith pat.data.reverse s.data.reverse

/-- JS `s.toLowerCase()` (ASCII, which covers the `.pdf` patterns). -/
def jsToLowerCase (s : String) : String := String.mk (s.data.map Char.toLower)

/-- JS truthiness of a nullable string: `null`/`undefined` and `""` are
falsy. -/
def jsStrTruthy (o : Option String) : Bool :=
  match o with
  | none => false
  | some s => s ≠ ""

/-- JS `file.filename?.toLowerCase() || ''`. -/
def lowerName (file : Option String) : String := jsToLowerCase (file.getD "")

/-- The cover-role test of the classification loop (line 113):
`filename.includes('_cover.pdf') || filename.includes('cover.pdf') ||
filename.endsWith('cover.pdf')` on the lowercased filename. -/
def coverMatch (file : Option String) : Bool :=
  let filename := lowerName file
  jsIncludes filename "_cover.pdf" || jsIncludes filename "cover.pdf" ||
    jsEndsWith filename "cover.pdf"

/-- The pages-role test of the classification loop (line 119). -/
def pagesMatch (file : Option String) : Bool :=
  let filename := lowerName file
  jsIncludes filename "_pages.pdf" || jsIncludes filename "pages.pdf" ||
    jsEndsWith filename "pages.pdf"

/-- The role-classification loop (lines 105-123).  Starting from
`coverFilename = null; pagesFilename = null`, every matching entry
*assigns* the corresponding variable, so a later match overwrites an
earlier one. -/
def classifyFiles (files : List (Option String)) :
    Option String × Option String :=
  files.foldl
    (fun acc file =>
      let acc1 := if coverMatch file then (file, acc.2) else acc
      if pagesMatch file then (acc1.1, file) else acc1)
    (none, none)

/-! A node of the extracted directory tree is a file with its content
bytes, or a subdirectory.  (`EntryList` is a specialised list so that the
depth-first traversals below are structurally recursive.) -/
mutual

inductive Entry : Type
  | file (name : String) (content : Buffer)
  | dir (name : String) (children : EntryList)

inductive EntryList : Type
  | nil
  | cons (head : Entry) (tail : EntryList)

end

/-- Build an `EntryList` from an ordinary list of entries. -/
def EntryList.ofList : List Entry → EntryList
  | [] => .nil
  | e :: rest => .cons e (EntryList.ofList rest)

/-- The `entry.name` property (for both files and directories). -/
def entryName : Entry → String
  | .file n _ => n
  | .dir n _ => n

/-- Probe `fsSync.existsSync(path.join(extractDir, filename))` for a manifest
filename (no path separators): an entry of either kind with that name at
the top level of the extracted directory. -/
def rootHas : EntryList → String → Bool
  | .nil, _ => false
  | .cons e rest, filename =>
    entryName e = filename || rootHas rest filename

/-! The recursive `searchDir` helper (pdfService.js lines 138-154):
depth-first over the entries in order, recursing into each subdirectory
before moving on, and returning the full path of the first *file* entry
whose name equals the target exactly (directories are never compared
against the target, only descended into). -/
mutual

def searchDirEntry (filename base : String) : Entry → Option String
  | .file n _ => if n = filename then some (base ++ "/" ++ n) else none
  | .dir n children => searchDir filename (base ++ "/" ++ n) children

def searchDir (filename base : String) : EntryList → Option String
  | .nil => none
  | .cons e rest =>
    match searchDirEntry filename base e with
    | some p => some p
    | none => searchDir filename base rest

end

/-- Helper `findPDFPath` (lines 130-157): try the direct path under `extractDir`
first, then the recursive search. -/
def findPDFPath (extractDir : String) (tree : EntryList)
    (filename : String) : Option String :=
  if rootHas tree filename then some (extractDir ++ "/" ++ filename)
  else searchDir filename extractDir tree

/-! `treeHasFile`: whether a *file* entry named `filename` occurs
anywhere in the tree. -/
mutual

def entryHasFile (filename : String) : Entry → Bool
  | .file n _ => n = filename
  | .dir _ children => treeHasFile filename children

def treeHasFile (filename : String) : EntryList → Bool
  | .nil => false
  | .cons e rest => entryHasFile filename e || treeHasFile filename rest

end

/-! `treeFiles`: all file entries of the tree with their full paths, used
to model `fs.readFile` on a path produced by `findPDFPath`. -/
mutual

def entryFiles (base : String) : Entry → List (String × Buffer)
  | .file n c => [(base ++ "/" ++ n, c)]
  | .dir n children => treeFiles (base ++ "/" ++ n) children

def treeFiles (base : String) : EntryList → List (String × Buffer)
  | .nil => []
  | .cons e rest => entryFiles base e ++ treeFiles base rest

end

/-- Function `findPDFsInDirectory(extractDir, files)` (lines 100-170).  Failure
cases carry the thrown messages; success returns
`{ coverPath, pagesPath }`. -/
def findPDFsInDirectory (extractDir : String) (tree : EntryList)
    (files : List (Option String)) :
    Except String (Option String × Option String) :=
  if files.length = 0 then .error "No files found in render data"
  else
    let coverFilename := (classifyFiles files).1
    let pagesFilename := (classifyFiles files).2
    if ¬ jsStrTruthy coverFilename ∧ ¬ jsStrTruthy pagesFilename then
      .error "Neither cover nor pages PDF found in files array"
    else
      let coverPath :=
        if jsStrTruthy coverFilename then
          findPDFPath extractDir tree (coverFilename.getD "")
        else none
      let pagesPath :=
        if jsStrTruthy pagesFilename then
          findPDFPath extractDir tree (pagesFilename.getD "")
        else none
      if coverPath = none ∧ pagesPath = none then
        .error "Could not find PDF files in extracted directory"
      else .ok (coverPath, pagesPath)

/-! ### DocumentPersister — `savePDF` (pdfService.js lines 228-247) -/

/-- The filename computed by `savePDF`: suffix `-{projectIndex}` exactly
when `projectIndex !== null && projectIndex !== 1`. -/
def savePDFFilename (orderId : String) (projectIndex : Option Nat) : String :=
  let suffix :=
    match projectIndex with
    | some n => if n ≠ 1 then "-" ++ toString n else ""
    | none => ""
  orderId ++ suffix ++ ".pdf"

instance {ε α : Type} [DecidableEq ε] [DecidableEq α] :
    DecidableEq (Except ε α) := fun a b =>
  match a, b with
  | .ok x, .ok y =>
    if h : x = y then isTrue (by rw [h]) else isFalse (by simp [h])
  | .error x, .error y =>
    if h : x = y then isTrue (by rw [h]) else isFalse (by simp [h])
  | .ok _, .error _ => isFalse (by simp)
  | .error _, .ok _ => isFalse (by simp)

/-! ### Webhook payload shapes (`req.body` as used by webhook.js) -/

/-- Property `project.render`: url and files; either may be absent. -/
structure Render : Type where
  url : Option String
  files : Option (List (Option String))
deriving DecidableEq

/-- Property `project.order` as read by line 22 of webhook.js
(`projects[0].order.reference`). -/
structure OrderRef : Type where
  reference : Option String
deriving DecidableEq

/-- One element of the webhook `projects` array. -/
structure Project : Type where
  id : Nat
  render : Option Render
  order : Option OrderRef
deriving DecidableEq

/-! ### WorkspaceReaper — `deleteDirectory` (pdfService.js lines 70-92)

The model tracks only whether the one workspace directory of the current
invocation exists, plus two fault-injection flags for the two deletion
attempts inside `deleteDirectory` (`fs.rm` and the manual fallback walk),
either of which the operating system may cause to throw. -/

/-- The `fs.rm(dirPath, { recursive: true, force: true })` attempt:
`rmOk = false` models the call throwing. -/
def rmStep (rmOk : Bool) : Except String Unit :=
  if rmOk then .ok () else .error "rm failed"

/-- The manual-walk fallback (lines 78-85): `fallbackOk = false` models it
throwing (e.g. `readdir` on a locked directory). -/
def fallbackDelete (fallbackOk : Bool) : Except String Unit :=
  if fallbackOk then .ok () else .error "fallback delete failed"

/-- Function `deleteDirectory(dirPath)`: try `fs.rm`; on failure run the fallback;
any remaining failure is only logged as a warning (`logger.warn`) and not
rethrown.  Returns `(directory still exists, a warning was logged)`.  The
return type has no error alternative: the function never throws. -/
def deleteDirectory (rmOk fallbackOk : Bool) (dirExists : Bool) :
    Bool × Bool :=
  match rmStep rmOk with
  | .ok _ => (false, false)
  | .error _ =>
    match fallbackDelete fallbackOk with
    | .ok _ => (false, false)
    | .error _ => (dirExists, true)

/-! ### ProjectPipeline — `processProjectPDFs` (pdfService.js lines 270-326) -/

/-- External collaborators and fault injection for one pipeline
invocation. -/
structure PipelineEnv : Type where
  /-- Value of `config.tempDir`. -/
  tempDir : String
  /-- Value of `Date.now()` at workspace creation. -/
  now : Nat
  /-- Oracle for `downloadTar`: the archive bytes served at a URL, `none` = network
  failure / non-success response / timeout (`axios` throws). -/
  net : String → Option Buffer
  /-- Oracle for `tar.extract`: decode an archive buffer into a directory tree,
  `none` = malformed archive (extraction throws). -/
  untar : Buffer → Option EntryList
  /-- Oracle for `PDFDocument.load`, `none` = the buffer does not parse. -/
  load : Buffer → Option PDFDoc
  /-- Oracle for `mergedPdf.save()`. -/
  save : PDFDoc → Buffer
  /-- Whether `fs.writeFile` succeeds inside `savePDF`. -/
  saveOk : Bool
  /-- Whether `fs.rm` succeeds inside `deleteDirectory`. -/
  rmOk : Bool
  /-- manual-walk fallback success inside `deleteDirectory`. -/
  fallbackOk : Bool

/-- The two early guards of `processProjectPDFs` (lines 271-280), run
*before* the `try`/`finally` and hence before any workspace directory can
exist: `project.render?.url || null` must be truthy and
`project.render?.files || []` must be a non-empty array. -/
def validateProject (project : Project) :
    Except String (String × List (Option String)) :=
  let renderUrl : Option String :=
    match project.render with
    | some r => if jsStrTruthy r.url then r.url else none
    | none => none
  let files : List (Option String) :=
    match project.render with
    | some r => r.files.getD []
    | none => []
  match renderUrl with
  | none => .error "No render URL found in project"
  | some url =>
    if files.length = 0 then .error "No files found in render data"
    else .ok (url, files)

/-- Model of `fs.readFile` on an optional located asset path: reads the content of
the file at that path inside the extracted tree; a path that does not
denote a file (e.g. a directory) makes the read throw. -/
def readAsset (tree : EntryList) (extractDir : String)
    (p : Option String) : Except String (Option Buffer) :=
  match p with
  | none => .ok none
  | some fp =>
    match (treeFiles extractDir tree).lookup fp with
    | some b => .ok (some b)
    | none => .error "readFile failed"

/-- The `try` block of `processProjectPDFs` (lines 287-318), steps 1-6.
Returns the primary outcome together with whether the workspace directory
exists when the block is left (it is created by `extractTar`'s `mkdir`
as soon as the download succeeded, and nothing inside the `try` removes
it). -/
def runPipelineBody (env : PipelineEnv) (url : String)
    (files : List (Option String)) (extractDir : String) (orderId : String)
    (projectIndex : Option Nat) : Except String String × Bool :=
  match env.net url with
  | none => (.error "Tar file download failed", false)
  | some tarBuffer =>
    match env.untar tarBuffer with
    | none => (.error "Tar extraction failed", true)
    | some tree =>
      match findPDFsInDirectory extractDir tree files with
      | .error e => (.error e, true)
      | .ok (coverPath, pagesPath) =>
        match readAsset tree extractDir coverPath with
        | .error e => (.error e, true)
        | .ok coverBuffer =>
          match readAsset tree extractDir pagesPath with
          | .error e => (.error e, true)
          | .ok pagesBuffer =>
            if coverBuffer = none ∧ pagesBuffer = none then
              (.error "Could not read any PDF files from extracted directory",
                true)
            else
              match mergePDFs env.load env.save coverBuffer pagesBuffer with
              | .error e => (.error e, true)
              | .ok _mergedBuffer =>
                if env.saveOk then
                  (.ok (env.tempDir ++ "/" ++
                    savePDFFilename orderId projectIndex), true)
                else (.error "Failed to save PDF", true)

/-- Observable outcome of one `processProjectPDFs` invocation. -/
structure PipelineOutput : Type where
  /-- the value returned / error thrown to the caller (a success carries
  the saved file path, which is all the source returns). -/
  result : Except String String
  /-- whether the invocation created its workspace directory. -/
  workspaceCreated : Bool
  /-- whether the workspace directory exists when control returns. -/
  workspaceExists : Bool
  /-- whether `deleteDirectory` was invoked before control returned. -/
  cleanupInvoked : Bool

/-- Function `processProjectPDFs(project, orderId, projectIndex)`: early guards,
then the `try` body, then — on every exit path of the `try`, success or
rethrown error alike — the `finally` clause invoking
`deleteDirectory(extractDir)`. -/
def processProjectPDFs (env : PipelineEnv) (project : Project)
    (orderId : String) (projectIndex : Option Nat) : PipelineOutput :=
  match validateProject project with
  | .error e =>
    { result := .error e, workspaceCreated := false,
      workspaceExists := false, cleanupInvoked := false }
  | .ok (url, files) =>
    let extractDir :=
      env.tempDir ++ "/extract_" ++ toString project.id ++ "_" ++
        toString env.now
    let body := runPipelineBody env url files extractDir orderId projectIndex
    let afterCleanup := deleteDirectory env.rmOk env.fallbackOk body.2
    { result := body.1, workspaceCreated := body.2,
      workspaceExists := afterCleanup.1, cleanupInvoked := true }

/-! ### Webhook handler — `router.post('/')` (webhook.js lines 14-182) -/

/-- The incoming `req.body`: `projects` is `none` when the property is
absent (JS `undefined`). -/
structure WebhookRequest : Type where
  order : Option String
  projects : Option (List Project)

/-- Line 22, `projects[0].order.reference`, with JavaScript evaluation
order: indexing an `undefined` array or reading `.order` of an
`undefined` element or `.reference` of an `undefined` order throws a
`TypeError`, which only the top-level `catch` (line 174) sees. -/
def getOrderNumber (projects : Option (List Project)) :
    Except String (Option String) :=
  match projects with
  | none => .error "TypeError"
  | some [] => .error "TypeError"
  | some (p :: _) =>
    match p.order with
    | none => .error "TypeError"
    | some o => .ok o.reference

/-- The pre-loop part of the handler (lines 18-33): evaluate
`projects[0].order.reference`, then the `orderNumber` guard (400), then
the `projects` array guard (400).  A thrown `TypeError` lands in the
top-level `catch`, which answers 500 `"Internal server error"`.
On success the handler proceeds to the batch loop with the non-empty
projects array. -/
def webhookValidation (req : WebhookRequest) :
    Except (Nat × String) (String × List Project) :=
  match getOrderNumber req.projects with
  | .error _ => .error (500, "Internal server error")
  | .ok orderNumber =>
    if ¬ jsStrTruthy orderNumber then
      .error (400, "Missing order field in webhook payload")
    else
      match req.projects with
      | none => .error (400, "Missing or empty projects array in webhook payload")
      | some [] => .error (400, "Missing or empty projects array in webhook payload")
      | some ps => .ok (orderNumber.getD "", ps)

/-- An element of the `results` array (line 123). -/
structure SuccessRec : Type where
  projectId : Nat
  projectIndex : Nat

/-- An element of the `errors` array.  The render-files validation push
(line 60) carries no `projectIndex`; the `catch` push (line 134) does. -/
structure ErrorRec : Type where
  projectId : Nat
  projectIndex : Option Nat
  message : String

/-- The render-data guard of one loop iteration (line 58):
`!project.render || !project.render.files ||
project.render.files.length === 0`. -/
def hasRenderFiles (p : Project) : Bool :=
  match p.render with
  | none => false
  | some r =>
    match r.files with
    | none => false
    | some fs => fs.length ≠ 0

/-- The batch loop (lines 50-141) over the projects of one order,
`i` being the 1-based `projectIndex`.  `proc i p` is the outcome of the
whole guarded `try` body for project `p` (PDF processing, money ledger
and delivery); its failure is caught, recorded, and the loop continues
with the next project. -/
def runBatch (proc : Nat → Project → Except String Unit) :
    List Project → Nat → List SuccessRec × List ErrorRec
  | [], _ => ([], [])
  | p :: rest, i =>
    let tail := runBatch proc rest (i + 1)
    if hasRenderFiles p then
      match proc i p with
      | .ok _ => (⟨p.id, i⟩ :: tail.1, tail.2)
      | .error msg => (tail.1, ⟨p.id, some i, msg⟩ :: tail.2)
    else
      (tail.1, ⟨p.id, none, "No render files found"⟩ :: tail.2)

/-- Whether iteration `i` of the batch loop records project `p` as a
success: the render-files guard passes and the `try` body succeeds. -/
def projOutcome (proc : Nat → Project → Except String Unit) (i : Nat)
    (p : Project) : Bool :=
  hasRenderFiles p && (proc i p).isOk

/-- The response-status derivation (lines 151-173): 500 when all projects
failed, 207 on a mix, 200 when none failed. -/
def deriveStatusCode (results : List SuccessRec) (errors : List ErrorRec) :
    Nat :=
  if errors.length > 0 ∧ results.length = 0 then 500
  else if errors.length > 0 then 207
  else 200

/-- Line 76 of webhook.js:
`const { pdfPath, pageCount } = await pdfService.processProjectPDFs(...)`.
The service resolves to a plain string (the saved file path), and object
destructuring of a JavaScript string primitive reads its absent
`pdfPath`/`pageCount` properties, yielding `undefined` for both. -/
def jsDestructurePdfResult (_s : String) : Option String × Option Nat :=
  (none, none)

/-- The `pageCount` value the webhook obtains for a project whose
pipeline invocation succeeded (`none` = JS `undefined`). -/
def webhookReportedPageCount (env : PipelineEnv) (project : Project)
    (orderId : String) (projectIndex : Option Nat) : Option Nat :=
  match (processProjectPDFs env project orderId projectIndex).result with
  | .ok s => (jsDestructurePdfResult s).2
  | .error _ => none

/-- Line 91: `typeof pageCount === 'number' ? pageCount : 0`. -/
def safePageCount (pageCount : Option Nat) : Nat := pageCount.getD 0

/-! ### A concrete end-to-end scenario (spec §8): archive with
`proj1_cover.pdf` (2 pages) and `proj1_pages.pdf` (24 pages), order
`ORD1`, project index 1.  Used to instantiate the theorems below. -/

/-- Bytes of the rendered cover PDF of the scenario. -/
def coverBufW : Buffer := [67]

/-- Bytes of the rendered pages PDF of the scenario. -/
def pagesBufW : Buffer := [80]

/-- Bytes of the tar archive of the scenario. -/
def tarBufW : Buffer := [84]

/-- The extracted archive: both PDFs at the top level. -/
def treeW : EntryList := EntryList.ofList
  [Entry.file "proj1_cover.pdf" coverBufW, Entry.file "proj1_pages.pdf" pagesBufW]

/-- The PDF parser of the scenario: the cover parses to 2 pages, the
pages document to 24 pages, anything else is structurally corrupt. -/
def loadW : Buffer → Option PDFDoc := fun b =>
  if b = coverBufW then some (List.range 2)
  else if b = pagesBufW then some (List.range 24)
  else none

/-- The PDF serializer of the scenario. -/
def saveW : PDFDoc → Buffer := fun d => d

/-- Environment of the scenario: the render URL serves the archive, all
filesystem operations succeed. -/
def envW : PipelineEnv :=
  { tempDir := "/tmp", now := 0,
    net := fun u => if u = "http://render" then some tarBufW else none,
    untar := fun b => if b = tarBufW then some treeW else none,
    load := loadW, save := saveW,
    saveOk := true, rmOk := true, fallbackOk := true }

/-- The webhook project of the scenario. -/
def projectW : Project :=
  { id := 1,
    render := some { url := some "http://render",
                     files := some [some "proj1_cover.pdf",
                                    some "proj1_pages.pdf"] },
    order := some { reference := some "ORD1" } }

/-! ## Claims -/

/-- C8: the filename persisted by `savePDF` is deterministic:
`{orderId}.pdf` when the 1-based project index is 1 or absent, and
`{orderId}-{index}.pdf` for any other index. -/
theorem savePDF_filename_deterministic (orderId : String)
    (projectIndex : Option Nat) :
    ((projectIndex = none ∨ projectIndex = some 1) →
      savePDFFilename orderId projectIndex = orderId ++ ".pdf")
    ∧ (∀ n : Nat, projectIndex = some n → n ≠ 1 →
      savePDFFilename orderId projectIndex =
        orderId ++ "-" ++ toString n ++ ".pdf") := by
  constructor
  · rintro (rfl | rfl) <;> simp [savePDFFilename]
  · rintro n rfl h
    simp [savePDFFilename, h, String.append_assoc]

/-- Witness for C8 at the spec §8 inputs: `persist("A1", 2) = "A1-2.pdf"`,
`persist("A1", 1) = "A1.pdf"`, `persist("A1", null) = "A1.pdf"`. -/
theorem savePDF_filename_deterministic_witness :
    savePDFFilename "A1" (some 2) = "A1-2.pdf"
    ∧ savePDFFilename "A1" (some 1) = "A1.pdf"
    ∧ savePDFFilename "A1" none = "A1.pdf" :=
  ⟨((savePDF_filename_deterministic "A1" (some 2)).2 2 rfl
      (by decide)).trans (by decide),
   ((savePDF_filename_deterministic "A1" (some 1)).1
      (Or.inr rfl)).trans (by decide),
   ((savePDF_filename_deterministic "A1" none).1
      (Or.inl rfl)).trans (by decide)⟩

/-- A parser for which the given buffer is structurally corrupt
(`PDFDocument.load` rejects it). -/
def loadNone : Buffer → Option PDFDoc := fun _ => none

/-- Serializer used in the C4 counterexample. -/
def saveId : PDFDoc → Buffer := fun d => d

/-- C4 counterexample: with only the pages input present, `mergePDFs`
still parses it — `PDFDocument.load(pagesBuffer)` runs before the
pass-through check — so for a buffer its parser cannot load the call
throws `PDF merge failed` instead of returning the bytes unchanged.  The
claim's "no failure possible from attempting to parse b" is false. -/
theorem mergePDFs_passthrough_counterexample :
    mergePDFs loadNone saveId none (some [1, 2, 3]) ≠
      .ok ([1, 2, 3] : Buffer)
    ∧ mergePDFs loadNone saveId none (some [1, 2, 3]) =
      .error "PDF merge failed"
    ∧ mergePDFs loadNone saveId (some [1, 2, 3]) none =
      .error "PDF merge failed" := by
  decide

/-- C4 amended: merging with exactly one input present returns that
buffer's bytes exactly, unmodified — but only provided the buffer
parses; `mergePDFs` does parse the single present input (and copies its
pages into a document that is then discarded), and a parse failure
raises the merge error. -/
theorem mergePDFs_single_input_passthrough (load : Buffer → Option PDFDoc)
    (save : PDFDoc → Buffer) (b : Buffer) (d : PDFDoc)
    (h : load b = some d) :
    mergePDFs load save none (some b) = .ok b
    ∧ mergePDFs load save (some b) none = .ok b := by
  simp [mergePDFs, addIfPresent, h]

/-- Witness for the amended C4 at the scenario's 24-page pages buffer. -/
theorem mergePDFs_single_input_passthrough_witness :
    mergePDFs loadW saveW none (some pagesBufW) = .ok pagesBufW
    ∧ mergePDFs loadW saveW (some pagesBufW) none = .ok pagesBufW :=
  mergePDFs_single_input_passthrough loadW saveW pagesBufW
    (List.range 24) (by decide)

/-- C7: when both inputs are present and both parse, the merged document
serialized by `mergePDFs` is exactly the cover's pages in original order
followed by the pages-document's pages in original order. -/
theorem mergePDFs_both_present_page_order (load : Buffer → Option PDFDoc)
    (save : PDFDoc → Buffer) (c p : Buffer) (dc dp : PDFDoc)
    (hc : load c = some dc) (hp : load p = some dp) :
    mergePDFs load save (some c) (some p) = .ok (save (dc ++ dp)) := by
  simp [mergePDFs, addIfPresent, hc, hp]

/-- Witness for C7 at the scenario: 2 cover pages followed by 24
pages-document pages. -/
theorem mergePDFs_both_present_page_order_witness :
    mergePDFs loadW saveW (some coverBufW) (some pagesBufW) =
      .ok (saveW (List.range 2 ++ List.range 24)) :=
  mergePDFs_both_present_page_order loadW saveW coverBufW pagesBufW
    (List.range 2) (List.range 24) (by decide) (by decide)

/-- C6: `deleteDirectory` never throws — its return type has no error
alternative — a warning is recorded exactly when both deletion attempts
(`fs.rm` and the manual fallback) fail, and the pipeline's primary
result is the same whatever the cleanup fault flags are: a cleanup
failure can never change the invocation's success/failure outcome. -/
theorem deleteDirectory_never_propagates (env : PipelineEnv)
    (project : Project) (orderId : String) (projectIndex : Option Nat)
    (a b a' b' : Bool) :
    ((processProjectPDFs { env with rmOk := a, fallbackOk := b }
        project orderId projectIndex).result
      = (processProjectPDFs { env with rmOk := a', fallbackOk := b' }
        project orderId projectIndex).result)
    ∧ (∀ rmOk fallbackOk dirExists : Bool,
        (deleteDirectory rmOk fallbackOk dirExists).2 = true ↔
          (rmStep rmOk).isOk = false ∧ (fallbackDelete fallbackOk).isOk = false) := by
  constructor
  · cases h : validateProject project with
    | error e => simp [processProjectPDFs, h]
    | ok v => simp only [processProjectPDFs, h]; rfl
  · intro rmOk fallbackOk dirExists
    cases rmOk <;> cases fallbackOk <;>
      simp [deleteDirectory, rmStep, fallbackDelete, Except.isOk, Except.toBool]

/-- If at least one of the two deletion attempts inside `deleteDirectory`
succeeds, the directory is gone afterwards. -/
theorem deleteDirectory_removes (rmOk fallbackOk dirExists : Bool)
    (h : rmOk = true ∨ fallbackOk = true) :
    (deleteDirectory rmOk fallbackOk dirExists).1 = false := by
  rcases h with h | h <;> subst h
  · simp [deleteDirectory, rmStep]
  · cases rmOk <;> simp [deleteDirectory, rmStep, fallbackDelete]

/-- C5: any `processProjectPDFs` invocation that created its workspace
directory invokes `deleteDirectory` on it before returning — on the
success path and on every rethrown-error path alike (the `finally`
clause) — and, provided the underlying removal primitives do not
themselves fail (cleanup is best-effort, claim C6), the workspace
directory no longer exists when control returns. -/
theorem processProjectPDFs_cleanup (env : PipelineEnv) (project : Project)
    (orderId : String) (projectIndex : Option Nat)
    (hdel : env.rmOk = true ∨ env.fallbackOk = true)
    (hcreated : (processProjectPDFs env project orderId
        projectIndex).workspaceCreated = true) :
    (processProjectPDFs env project orderId projectIndex).cleanupInvoked = true
    ∧ (processProjectPDFs env project orderId
        projectIndex).workspaceExists = false := by
  cases h : validateProject project with
  | error e =>
    simp [processProjectPDFs, h] at hcreated
  | ok v =>
    refine ⟨by simp [processProjectPDFs, h], ?_⟩
    simp only [processProjectPDFs, h]
    exact deleteDirectory_removes _ _ _ hdel

/-- Witness for C5 at the scenario invocation (which does create its
workspace and succeeds). -/
theorem processProjectPDFs_cleanup_witness :
    (processProjectPDFs envW projectW "ORD1" (some 1)).cleanupInvoked = true
    ∧ (processProjectPDFs envW projectW "ORD1" (some 1)).workspaceExists
      = false :=
  processProjectPDFs_cleanup envW projectW "ORD1" (some 1)
    (Or.inl (by decide)) (by decide)

/-- C10: a webhook request whose body has no `projects` array, or an
empty one, crashes on line 22 (`projects[0].order.reference`) before the
dedicated projects-array validation is reached, so the handler answers
with the generic 500 `Internal server error` of the top-level `catch`
and never with the 400 `Missing or empty projects array` response. -/
theorem webhook_missing_projects_is_500 (req : WebhookRequest)
    (h : req.projects = none ∨ req.projects = some []) :
    webhookValidation req = .error (500, "Internal server error")
    ∧ webhookValidation req ≠
      .error (400, "Missing or empty projects array in webhook payload") := by
  rcases h with h | h <;>
    simp [webhookValidation, getOrderNumber, h]

/-- Witness for C10 at a concrete body without a `projects` property. -/
theorem webhook_missing_projects_is_500_witness :
    webhookValidation { order := some "5", projects := none } =
      .error (500, "Internal server error")
    ∧ webhookValidation { order := some "5", projects := none } ≠
      .error (400, "Missing or empty projects array in webhook payload") :=
  webhook_missing_projects_is_500 { order := some "5", projects := none }
    (Or.inl rfl)

/-- C2, evaluated at the spec §8 scenario (pages document of 24 pages,
project processed successfully end to end): `processProjectPDFs`
resolves to a bare file-path string, webhook.js line 76 destructures
`{ pdfPath, pageCount }` from that string, so the `pageCount` reported
downstream is `undefined` — not the pages-document page count 24 — and
the order-value computation sees `safePageCount = 0`. -/
theorem webhook_pagecount_is_undefined :
    (processProjectPDFs envW projectW "ORD1" (some 1)).result =
      .ok "/tmp/ORD1.pdf"
    ∧ (envW.load pagesBufW).map List.length = some 24
    ∧ webhookReportedPageCount envW projectW "ORD1" (some 1) = none
    ∧ webhookReportedPageCount envW projectW "ORD1" (some 1) ≠ some 24
    ∧ safePageCount (webhookReportedPageCount envW projectW "ORD1"
        (some 1)) = 0 := by
  decide

/-- The classification loop keeps, for each role, the *last* matching
manifest entry: its fold overwrites the role variable on every match. -/
theorem classifyFiles_eq (files : List (Option String)) :
    classifyFiles files =
      ((files.reverse.find? coverMatch).join,
       (files.reverse.find? pagesMatch).join) := by
  induction files using List.reverseRecOn with
  | nil => rfl
  | append_singleton xs x ih =>
    cases hc : coverMatch x <;> cases hp : pagesMatch x <;>
      simp [classifyFiles, List.foldl_append, hc, hp,
        List.reverse_append, ih, - List.foldl_reverse] <;>
      simp [classifyFiles] at ih <;>
      simp [ih]

/-- C3 counterexample: a manifest listing two cover-matching filenames
selects the *second* one, not the first. -/
theorem classifyFiles_first_match_counterexample :
    (classifyFiles [some "a_cover.pdf", some "b_cover.pdf"]).1 =
      some "b_cover.pdf"
    ∧ (classifyFiles [some "a_cover.pdf", some "b_cover.pdf"]).1 ≠
      some "a_cover.pdf" := by
  decide

/-- C3 amended: for every manifest file list, the filename selected for
a role is the *last* matching entry in manifest order (every match
overwrites the previously selected one); `none` when no entry matches. -/
theorem classifyFiles_last_match_wins (files : List (Option String)) :
    (classifyFiles files).1 = (files.reverse.find? coverMatch).join
    ∧ (classifyFiles files).2 = (files.reverse.find? pagesMatch).join :=
  ⟨congrArg Prod.fst (classifyFiles_eq files),
   congrArg Prod.snd (classifyFiles_eq files)⟩

/-! Correctness of the recursive search: `searchDir` finds a path exactly
when a file entry with the target name exists somewhere in the tree. -/

mutual

theorem searchDirEntry_isSome (filename : String) :
    ∀ (base : String) (e : Entry),
      (searchDirEntry filename base e).isSome = entryHasFile filename e
  | base, .file n c => by
    by_cases h : n = filename <;> simp [searchDirEntry, entryHasFile, h]
  | base, .dir n children => by
    show (searchDir filename (base ++ "/" ++ n) children).isSome =
      treeHasFile filename children
    exact searchDir_isSome filename (base ++ "/" ++ n) children

theorem searchDir_isSome (filename : String) :
    ∀ (base : String) (t : EntryList),
      (searchDir filename base t).isSome = treeHasFile filename t
  | base, .nil => rfl
  | base, .cons e rest => by
    have he := searchDirEntry_isSome filename base e
    have hr := searchDir_isSome filename base rest
    cases h : searchDirEntry filename base e with
    | none =>
      rw [h] at he
      simp [searchDir, treeHasFile, h, ← he, hr]
    | some p =>
      rw [h] at he
      simp [searchDir, treeHasFile, h, ← he]

end

/-- Search `findPDFPath` succeeds exactly when the target exists as a top-level
entry (the direct `existsSync` probe) or as a file anywhere in the tree
(the recursive search). -/
theorem findPDFPath_isSome (extractDir : String) (tree : EntryList)
    (filename : String) :
    (findPDFPath extractDir tree filename).isSome =
      (rootHas tree filename || treeHasFile filename tree) := by
  unfold findPDFPath
  cases h : rootHas tree filename <;>
    simp [h, searchDir_isSome]

/-- Whether a classified role (the optional filename selected for it)
resolves to a physically present file: the role was classified and its
filename is found by the direct probe or the recursive search. -/
def roleResolves (tree : EntryList) (role : Option String) : Bool :=
  match role with
  | none => false
  | some f => jsStrTruthy (some f) && (rootHas tree f || treeHasFile f tree)

/-- A selected role filename comes from a matching manifest entry. -/
theorem matchRole_join_eq_some {p : Option String → Bool}
    {files : List (Option String)} {f : String}
    (h : ((files.reverse.find? p).join : Option String) = some f) :
    p (some f) = true ∧ some f ∈ files := by
  cases o : files.reverse.find? p with
  | none => rw [o] at h; simp at h
  | some v =>
    rw [o] at h
    cases v with
    | none => simp at h
    | some s =>
      simp at h
      subst h
      exact ⟨List.find?_some o,
        List.mem_reverse.mp (List.mem_of_find?_eq_some o)⟩

/-- An unselected role means no manifest entry matches it. -/
theorem matchRole_join_eq_none {p : Option String → Bool}
    (hp : p none = false) {files : List (Option String)}
    (h : ((files.reverse.find? p).join : Option String) = none) :
    ∀ x ∈ files, p x = false := by
  intro x hx
  cases o : files.reverse.find? p with
  | none =>
    rw [List.find?_eq_none] at o
    have := o x (List.mem_reverse.mpr hx)
    simpa using this
  | some v =>
    rw [o] at h
    cases v with
    | none =>
      have := List.find?_some o
      rw [hp] at this
      cases this
    | some s => simp at h

/-- If no manifest entry matches, the role stays unselected. -/
theorem matchRole_none_of_all {p : Option String → Bool}
    {files : List (Option String)} (h : ∀ x ∈ files, p x = false) :
    ((files.reverse.find? p).join : Option String) = none := by
  have hfind : files.reverse.find? p = none :=
    List.find?_eq_none.mpr (by
      intro a ha
      simp [h a (List.mem_reverse.mp ha)])
  rw [hfind]
  rfl

/-- A cover-matching filename is non-empty (hence JS-truthy). -/
theorem coverMatch_ne_empty {f : String} (h : coverMatch (some f) = true) :
    f ≠ "" := by
  rintro rfl
  exact absurd h (by decide)

/-- A pages-matching filename is non-empty (hence JS-truthy). -/
theorem pagesMatch_ne_empty {f : String} (h : pagesMatch (some f) = true) :
    f ≠ "" := by
  rintro rfl
  exact absurd h (by decide)

/-- C9: `findPDFsInDirectory` fails (with the thrown not-found errors)
exactly when either (a) no manifest filename matches the cover patterns
and none matches the pages patterns, or (b) after physical resolution
neither classified role's filename is present in the extracted tree
(neither at the top level nor anywhere deeper as a file); on success the
returned `{coverPath, pagesPath}` pair has at least one path set. -/
theorem findPDFsInDirectory_spec (extractDir : String) (tree : EntryList)
    (files : List (Option String)) :
    ((findPDFsInDirectory extractDir tree files).isOk = false ↔
      ((∀ f ∈ files, coverMatch f = false ∧ pagesMatch f = false) ∨
       (roleResolves tree (classifyFiles files).1 = false ∧
        roleResolves tree (classifyFiles files).2 = false)))
    ∧ (∀ c p, findPDFsInDirectory extractDir tree files = .ok (c, p) →
        c.isSome = true ∨ p.isSome = true) := by
  have hcv := congrArg Prod.fst (classifyFiles_eq files)
  have hpv := congrArg Prod.snd (classifyFiles_eq files)
  rcases hc : (classifyFiles files).1 with _ | f <;>
    rcases hp : (classifyFiles files).2 with _ | g
  · -- none, none
    have hca : ∀ x ∈ files, coverMatch x = false :=
      matchRole_join_eq_none (by decide) (hcv.symm.trans hc)
    have hpa : ∀ x ∈ files, pagesMatch x = false :=
      matchRole_join_eq_none (by decide) (hpv.symm.trans hp)
    constructor
    · constructor
      · intro _
        exact Or.inl (fun x hx => ⟨hca x hx, hpa x hx⟩)
      · intro _
        by_cases h0 : files.length = 0 <;>
          simp [findPDFsInDirectory, h0, hc, hp, jsStrTruthy, Except.isOk, Except.toBool]
    · intro c p hok
      by_cases h0 : files.length = 0 <;>
        simp [findPDFsInDirectory, h0, hc, hp, jsStrTruthy] at hok
  · -- none, some g
    have hgm := matchRole_join_eq_some (hpv.symm.trans hp)
    have hgne : g ≠ "" := pagesMatch_ne_empty hgm.1
    have h0 : ¬ files.length = 0 := by
      intro h0
      rw [List.length_eq_zero] at h0
      subst h0
      exact absurd hgm.2 (List.not_mem_nil _)
    have heval : findPDFsInDirectory extractDir tree files =
        (if findPDFPath extractDir tree g = none then
          .error "Could not find PDF files in extracted directory"
        else .ok (none, findPDFPath extractDir tree g)) := by
      simp [findPDFsInDirectory, h0, hc, hp, jsStrTruthy, hgne]
    have hres : roleResolves tree (some g) =
        (rootHas tree g || treeHasFile g tree) := by
      simp [roleResolves, jsStrTruthy, hgne]
    constructor
    · constructor
      · intro hfail
        rw [heval] at hfail
        right
        refine ⟨rfl, ?_⟩
        rw [hres]
        cases hgp : findPDFPath extractDir tree g with
        | none =>
          have := findPDFPath_isSome extractDir tree g
          rw [hgp] at this
          exact this.symm
        | some q =>
          rw [hgp] at hfail
          simp [Except.isOk, Except.toBool] at hfail
      · intro hrhs
        rcases hrhs with ha | hb
        · exact absurd (ha _ hgm.2).2 (by simp [hgm.1])
        · have hb2 : roleResolves tree (some g) = false := hb.2
          rw [hres] at hb2
          have hnone : findPDFPath extractDir tree g = none := by
            have hi := findPDFPath_isSome extractDir tree g
            rw [hb2] at hi
            exact Option.not_isSome_iff_eq_none.mp (by simp [hi])
          rw [heval, hnone]
          simp [Except.isOk, Except.toBool]
    · intro c p hok
      rw [heval] at hok
      cases hgp : findPDFPath extractDir tree g with
      | none => rw [hgp] at hok; simp at hok
      | some q =>
        rw [hgp] at hok
        simp at hok
        rw [← hok.2]
        simp
  · -- some f, none
    have hfm := matchRole_join_eq_some (hcv.symm.trans hc)
    have hfne : f ≠ "" := coverMatch_ne_empty hfm.1
    have h0 : ¬ files.length = 0 := by
      intro h0
      rw [List.length_eq_zero] at h0
      subst h0
      exact absurd hfm.2 (List.not_mem_nil _)
    have heval : findPDFsInDirectory extractDir tree files =
        (if findPDFPath extractDir tree f = none then
          .error "Could not find PDF files in extracted directory"
        else .ok (findPDFPath extractDir tree f, none)) := by
      simp [findPDFsInDirectory, h0, hc, hp, jsStrTruthy, hfne]
    have hres : roleResolves tree (some f) =
        (rootHas tree f || treeHasFile f tree) := by
      simp [roleResolves, jsStrTruthy, hfne]
    constructor
    · constructor
      · intro hfail
        rw [heval] at hfail
        right
        refine ⟨?_, rfl⟩
        rw [hres]
        cases hfp : findPDFPath extractDir tree f with
        | none =>
          have := findPDFPath_isSome extractDir tree f
          rw [hfp] at this
          exact this.symm
        | some q =>
          rw [hfp] at hfail
          simp [Except.isOk, Except.toBool] at hfail
      · intro hrhs
        rcases hrhs with ha | hb
        · exact absurd (ha _ hfm.2).1 (by simp [hfm.1])
        · have hb1 : roleResolves tree (some f) = false := hb.1
          rw [hres] at hb1
          have hnone : findPDFPath extractDir tree f = none := by
            have hi := findPDFPath_isSome extractDir tree f
            rw [hb1] at hi
            exact Option.not_isSome_iff_eq_none.mp (by simp [hi])
          rw [heval, hnone]
          simp [Except.isOk, Except.toBool]
    · intro c p hok
      rw [heval] at hok
      cases hfp : findPDFPath extractDir tree f with
      | none => rw [hfp] at hok; simp at hok
      | some q =>
        rw [hfp] at hok
        simp at hok
        rw [← hok.1]
        simp
  · -- some f, some g
    have hfm := matchRole_join_eq_some (hcv.symm.trans hc)
    have hfne : f ≠ "" := coverMatch_ne_empty hfm.1
    have hgm := matchRole_join_eq_some (hpv.symm.trans hp)
    have hgne : g ≠ "" := pagesMatch_ne_empty hgm.1
    have h0 : ¬ files.length = 0 := by
      intro h0
      rw [List.length_eq_zero] at h0
      subst h0
      exact absurd hfm.2 (List.not_mem_nil _)
    have heval : findPDFsInDirectory extractDir tree files =
        (if findPDFPath extractDir tree f = none ∧
            findPDFPath extractDir tree g = none then
          .error "Could not find PDF files in extracted directory"
        else .ok (findPDFPath extractDir tree f,
          findPDFPath extractDir tree g)) := by
      simp [findPDFsInDirectory, h0, hc, hp, jsStrTruthy, hfne, hgne]
    have hresf : roleResolves tree (some f) =
        (rootHas tree f || treeHasFile f tree) := by
      simp [roleResolves, jsStrTruthy, hfne]
    have hresg : roleResolves tree (some g) =
        (rootHas tree g || treeHasFile g tree) := by
      simp [roleResolves, jsStrTruthy, hgne]
    have hisf := findPDFPath_isSome extractDir tree f
    have hisg := findPDFPath_isSome extractDir tree g
    constructor
    · constructor
      · intro hfail
        rw [heval] at hfail
        right
        by_cases hcn : findPDFPath extractDir tree f = none
        · by_cases hgn : findPDFPath extractDir tree g = none
          · rw [hcn] at hisf
            rw [hgn] at hisg
            exact ⟨by rw [hresf]; exact hisf.symm,
                   by rw [hresg]; exact hisg.symm⟩
          · rw [if_neg (by simp [hgn])] at hfail
            simp [Except.isOk, Except.toBool] at hfail
        · rw [if_neg (by simp [hcn])] at hfail
          simp [Except.isOk, Except.toBool] at hfail
      · intro hrhs
        rcases hrhs with ha | hb
        · exact absurd (ha _ hfm.2).1 (by simp [hfm.1])
        · have hb1 : roleResolves tree (some f) = false := hb.1
          have hb2 : roleResolves tree (some g) = false := hb.2
          rw [hresf] at hb1
          rw [hresg] at hb2
          have hfn : findPDFPath extractDir tree f = none := by
            rw [hb1] at hisf
            exact Option.not_isSome_iff_eq_none.mp (by simp [hisf])
          have hgn : findPDFPath extractDir tree g = none := by
            rw [hb2] at hisg
            exact Option.not_isSome_iff_eq_none.mp (by simp [hisg])
          rw [heval, if_pos ⟨hfn, hgn⟩]
          simp [Except.isOk, Except.toBool]
    · intro c p hok
      rw [heval] at hok
      by_cases hcn : findPDFPath extractDir tree f = none
      · by_cases hgn : findPDFPath extractDir tree g = none
        · rw [if_pos ⟨hcn, hgn⟩] at hok
          simp at hok
        · rw [if_neg (by simp [hgn])] at hok
          simp at hok
          right
          rw [← hok.2]
          simp [Option.isSome_iff_ne_none, hgn]
      · rw [if_neg (by simp [hcn])] at hok
        simp at hok
        left
        rw [← hok.1]
        simp [Option.isSome_iff_ne_none, hcn]

/-- Witness for C9: a located cover asset makes the locator succeed with
the cover path set. -/
theorem findPDFsInDirectory_spec_witness :
    (some "/w/x_cover.pdf" : Option String).isSome = true
    ∨ (none : Option String).isSome = true :=
  (findPDFsInDirectory_spec "/w"
      (EntryList.ofList [Entry.file "x_cover.pdf" [1]])
      [some "x_cover.pdf"]).2
    (some "/w/x_cover.pdf") none (by decide)

/-- The two outcome arrays of the batch loop count, between them, every
project exactly once: the success records are as many as the iterations
whose guarded body succeeded, the error records as many as the
iterations that failed (the render-files guard or a caught exception) —
whatever happened in the other iterations. -/
theorem runBatch_counts (proc : Nat → Project → Except String Unit) :
    ∀ (ps : List Project) (i : Nat),
      (runBatch proc ps i).1.length =
        (List.enumFrom i ps).countP (fun x => projOutcome proc x.1 x.2)
      ∧ (runBatch proc ps i).2.length =
        (List.enumFrom i ps).countP (fun x => !projOutcome proc x.1 x.2) := by
  intro ps
  induction ps with
  | nil => intro i; simp [runBatch]
  | cons p rest ih =>
    intro i
    have hih := ih (i + 1)
    cases hr : hasRenderFiles p with
    | false =>
      simp [runBatch, hr, projOutcome, List.enumFrom, List.countP_cons,
        hih.1, hih.2]
    | true =>
      cases hpr : proc i p with
      | ok u =>
        simp [runBatch, hr, hpr, projOutcome, List.enumFrom,
          List.countP_cons, hih.1, hih.2, Except.isOk, Except.toBool]
      | error m =>
        simp [runBatch, hr, hpr, projOutcome, List.enumFrom,
          List.countP_cons, hih.1, hih.2, Except.isOk, Except.toBool]

/-- The batch loop is only reached with a non-empty projects array: the
pre-loop code either crashes (500), rejects (400), or hands a non-empty
list to the loop. -/
theorem webhookValidation_ok_nonempty {req : WebhookRequest}
    {o : String} {ps : List Project}
    (h : webhookValidation req = .ok (o, ps)) : 0 < ps.length := by
  unfold webhookValidation at h
  cases hgo : getOrderNumber req.projects with
  | error e => rw [hgo] at h; simp at h
  | ok onum =>
    rw [hgo] at h
    by_cases ht : jsStrTruthy onum = true
    · simp [ht] at h
      cases hp : req.projects with
      | none => rw [hp] at h; simp at h
      | some l =>
        cases l with
        | nil => rw [hp] at h; simp at h
        | cons a t =>
          rw [hp] at h
          simp at h
          rw [← h.2]
          simp
    · simp [ht] at h

/-- Case analysis of the response-status derivation. -/
theorem deriveStatusCode_cases (r : List SuccessRec) (e : List ErrorRec) :
    (deriveStatusCode r e = 200 ↔ e.length = 0)
    ∧ (deriveStatusCode r e = 500 ↔ 0 < e.length ∧ r.length = 0)
    ∧ (deriveStatusCode r e = 207 ↔ 0 < e.length ∧ 0 < r.length) := by
  unfold deriveStatusCode
  split_ifs with h1 h2 <;> omega

/-- C1: for every webhook request that reaches the batch loop (so with
`N = ps.length ≥ 1` projects), the loop produces exactly `N` outcome
records — each project contributes exactly one success or one failure
record, a failure at project `i` never prevents project `i+1` from being
attempted — and the derived batch status is 200 (success) iff all `N`
iterations succeeded, 500 (failure) iff all `N` failed, and 207
(partial) otherwise.  (A zero-project order never reaches the loop:
claim C10.) -/
theorem webhook_batch_spec (req : WebhookRequest) (orderNumber : String)
    (ps : List Project) (proc : Nat → Project → Except String Unit)
    (h : webhookValidation req = .ok (orderNumber, ps)) :
    (runBatch proc ps 1).1.length + (runBatch proc ps 1).2.length = ps.length
    ∧ (deriveStatusCode (runBatch proc ps 1).1 (runBatch proc ps 1).2 = 200 ↔
        ∀ x ∈ List.enumFrom 1 ps, projOutcome proc x.1 x.2 = true)
    ∧ (deriveStatusCode (runBatch proc ps 1).1 (runBatch proc ps 1).2 = 500 ↔
        ∀ x ∈ List.enumFrom 1 ps, projOutcome proc x.1 x.2 = false)
    ∧ (deriveStatusCode (runBatch proc ps 1).1 (runBatch proc ps 1).2 = 207 ↔
        ((∃ x ∈ List.enumFrom 1 ps, projOutcome proc x.1 x.2 = true) ∧
         (∃ x ∈ List.enumFrom 1 ps, projOutcome proc x.1 x.2 = false))) := by
  have hN := webhookValidation_ok_nonempty h
  obtain ⟨h1, h2⟩ := runBatch_counts proc ps 1
  obtain ⟨d200, d500, d207⟩ :=
    deriveStatusCode_cases (runBatch proc ps 1).1 (runBatch proc ps 1).2
  have hlen : (List.enumFrom 1 ps).length = ps.length := by
    simp [List.enumFrom_length]
  have hsum : (List.enumFrom 1 ps).countP (fun x => projOutcome proc x.1 x.2)
      + (List.enumFrom 1 ps).countP (fun x => !projOutcome proc x.1 x.2)
      = ps.length := by
    have h0 := (List.enumFrom 1 ps).length_eq_countP_add_countP
      (fun x => projOutcome proc x.1 x.2)
    have hc : (List.enumFrom 1 ps).countP (fun a => !projOutcome proc a.1 a.2)
        = (List.enumFrom 1 ps).countP
            (fun a => ¬ projOutcome proc a.1 a.2) := by
      congr 1
      funext a
      simp [decide_not]
    rw [hc]
    omega
  refine ⟨by rw [h1, h2, hsum], ?_, ?_, ?_⟩
  · rw [d200, h2, List.countP_eq_zero]
    simp
  · rw [d500, h1, h2]
    constructor
    · rintro ⟨-, hr0⟩
      rw [List.countP_eq_zero] at hr0
      intro x hx
      have := hr0 x hx
      simpa using this
    · intro hall
      have hr0 : (List.enumFrom 1 ps).countP
          (fun x => projOutcome proc x.1 x.2) = 0 := by
        rw [List.countP_eq_zero]
        intro x hx
        simp [hall x hx]
      refine ⟨?_, hr0⟩
      omega
  · rw [d207, h1, h2, List.countP_pos_iff, List.countP_pos_iff]
    constructor
    · rintro ⟨⟨x, hx, hxe⟩, ⟨y, hy, hyr⟩⟩
      exact ⟨⟨y, hy, hyr⟩, ⟨x, hx, by simpa using hxe⟩⟩
    · rintro ⟨⟨y, hy, hyr⟩, ⟨x, hx, hxe⟩⟩
      exact ⟨⟨x, hx, by simp [hxe]⟩, ⟨y, hy, hyr⟩⟩

/-- A webhook body whose single project is the spec §8 scenario. -/
def reqW : WebhookRequest :=
  { order := some "5", projects := some [projectW] }

/-- A batch-loop body oracle that succeeds on every project. -/
def procW : Nat → Project → Except String Unit := fun _ _ => .ok ()

/-- Witness for C1 at the concrete one-project order: one outcome
record. -/
theorem webhook_batch_spec_witness :
    (runBatch procW [projectW] 1).1.length +
      (runBatch procW [projectW] 1).2.length = [projectW].length :=
  (webhook_batch_spec reqW "ORD1" [projectW] procW (by decide)).1

end Picskis
